import Mathlib

/-!
Verification of the translate-validate-repair control loop of the Java-to-Python
transpiler repository.  The Python source is embedded shallowly: pure string
manipulation becomes Lean functions on `String`/`List Char`, the mutable workflow
state becomes an explicit record threaded through the stage functions, external
collaborators (the LLM, the py_compile checker, the file system) become explicit
function and data parameters, and Python exceptions become `Except`.
-/

namespace Transpiler

/-- Python whitespace, as used by str.strip and by the regex whitespace class
(ASCII range, which is all that the workflow's strings contain). -/
def pyWS (c : Char) : Bool :=
  c = ' ' || c = '\t' || c = '\n' || c = '\r' || c = '\x0b' || c = '\x0c'

/-- The characters of a string after Python str.strip: leading and trailing
whitespace removed. -/
def pyStripChars (l : List Char) : List Char :=
  ((l.dropWhile pyWS).reverse.dropWhile pyWS).reverse

/-- Python str.strip. -/
def pyStrip (s : String) : String := ⟨pyStripChars s.data⟩

/-- src/core/state.py StateError: status 0 = no error, 1 = compile error,
2 = output mismatch; message carries the diagnostic text. -/
structure StateError where
  status : Int
  message : String
  deriving DecidableEq, Repr

/-- src/core/state.py State: the workflow record threaded through every stage. -/
structure State where
  code : String
  original_code : String
  summary : String
  plan : String
  scratchpad : String
  last_error : StateError
  current_iterations : Int
  deriving DecidableEq, Repr

/-- src/run_transpile.py compile_condition: continue transpilation on compile
error while strictly under the iteration cap, otherwise terminate. -/
def compile_condition (state : State) (max_iter : Int) : String :=
  if state.last_error.status ≠ 0 ∧ state.current_iterations < max_iter then
    "continue"
  else
    "terminate"

/-- Outcome of the external py_compile.compile call on the scratch file:
success, a raised PyCompileError (caught by the except clause), or any other
raised exception (uncaught, propagates after the finally-block cleanup). -/
inductive CompileOutcome where
  | ok : CompileOutcome
  | pyCompileError (msg : String) : CompileOutcome
  | raised (msg : String) : CompileOutcome
  deriving DecidableEq, Repr

/-- src/core/tools/compiler.py check_compilation.  The external pieces are
explicit parameters: `py_compile` is the compiler oracle, `tmp_path` the fresh
scratch-file path handed out by tempfile, and `fs` the list of existing
scratch-file paths (the observable file-system residue).  The empty / all
whitespace guard returns before any file is created; otherwise the scratch
file is created, the checker runs, and the finally-block removes the file on
every path, including the uncaught-exception path (`Except.error`). -/
def check_compilation (py_compile : String → CompileOutcome) (tmp_path : String)
    (code : String) (fs : List String) : Except String StateError × List String :=
  if code.data.isEmpty || (pyStripChars code.data).isEmpty then
    (Except.ok ⟨1, "Empty code provided"⟩, fs)
  else
    let fs1 := tmp_path :: fs
    let cleaned := if fs1.contains tmp_path then fs1.erase tmp_path else fs1
    match py_compile code with
    | CompileOutcome.ok => (Except.ok ⟨0, ""⟩, cleaned)
    | CompileOutcome.pyCompileError msg => (Except.ok ⟨1, msg⟩, cleaned)
    | CompileOutcome.raised msg => (Except.error msg, cleaned)

/-- The literal characters of the opening fence tag in the extraction regex. -/
def pyTag : List Char :=
  '\x60' :: '\x60' :: '\x60' :: 'p' :: 'y' :: 't' :: 'h' :: 'o' :: 'n' :: []

/-- Newline followed by a closing fence: the literal that terminates the lazy
capture group of the extraction regex. -/
def nlFence : List Char := '\n' :: '\x60' :: '\x60' :: '\x60' :: []

/-- Does `pat` occur as the initial segment of `l`. -/
def startsWithL : List Char → List Char → Bool
  | [], _ => true
  | _ :: _, [] => false
  | p :: ps, c :: cs => p = c && startsWithL ps cs

/-- Consume the literal `pat` at the head of `l`, returning the rest. -/
def dropLit : List Char → List Char → Option (List Char)
  | [], l => some l
  | _ :: _, [] => none
  | p :: ps, c :: cs => if p = c then dropLit ps cs else none

/-- Does `pat` occur as a contiguous segment anywhere in `l`. -/
def occursIn (pat : List Char) : List Char → Bool
  | [] => startsWithL pat []
  | c :: t => startsWithL pat (c :: t) || occursIn pat t

/-- The lazy group of the extraction regex followed by its terminator: capture
the shortest segment after which newline-fence matches (re lazy semantics). -/
def matchCapture : List Char → Option (List Char)
  | [] => none
  | c :: rest =>
    if startsWithL nlFence (c :: rest) then some []
    else
      match matchCapture rest with
      | some cap => some (c :: cap)
      | none => none

/-- The tail of the extraction regex after the fence tag: greedy whitespace
star, a literal newline, then the lazy capture.  The greedy star is tried
longest-first with backtracking, exactly as the re engine does. -/
def matchTail : List Char → Option (List Char)
  | [] => none
  | c :: rest =>
    if pyWS c then
      match matchTail rest with
      | some cap => some cap
      | none => if c = '\n' then matchCapture rest else none
    else none

/-- Normal form of the greedy whitespace star acting on the capture text: what
matchTail produces on input x followed by a closing newline-fence, when x
contains a non-whitespace character.  `some r` means the star consumed a
whitespace run of x through a newline, leaving capture r; `none` means the
star stopped before the first character of x. -/
def shave : List Char → Option (List Char)
  | [] => none
  | c :: x =>
    if pyWS c then
      match shave x with
      | some r => some r
      | none => if c = '\n' then some x else none
    else none

/-- re.findall of the fence pattern, first match only: scan start positions
left to right, at each one try the literal tag and then the regex tail. -/
def findPyBlock : List Char → Option (List Char)
  | [] => none
  | c :: rest =>
    match dropLit pyTag (c :: rest) with
    | some afterTag =>
      match matchTail afterTag with
      | some cap => some cap
      | none => findPyBlock rest
    | none => findPyBlock rest

/-- src/core/agents/transpile_agent.py TranspileAgent.  Python template
.format is modelled by making each stored prompt template a function of its
format arguments; `error_prompts` is the dict from error status to repair
template. -/
structure TranspileAgent where
  name : String
  system_prompt : String
  transpile_user_prompt : String → String → String
  error_prompts : List (Int × (String → String))

/-- src/core/agents/transpile_agent.py TranspileAgent._extract_code: take the
first fenced python block's capture, stripped; otherwise fall back to the
whole response, stripped. -/
def TranspileAgent._extract_code (llm_response : String) : String :=
  match findPyBlock llm_response.data with
  | some cap => ⟨pyStripChars cap⟩
  | none => pyStrip llm_response

/-- The template lookup inside _fix_errors:
self.error_prompts.get(error_type, self.error_prompts[1]).  Python evaluates
the bracket lookup for the default first, so a dict without key 1 raises
KeyError (modelled as `none`) even when error_type itself is registered. -/
def TranspileAgent.selectErrorPrompt (agent : TranspileAgent) (error_type : Int) :
    Option (String → String) :=
  match agent.error_prompts.lookup 1 with
  | none => none
  | some dflt => some ((agent.error_prompts.lookup error_type).getD dflt)

/-- src/core/agents/transpile_agent.py TranspileAgent._initial_transpile.
`invoke` is the LLM collaborator: system message content and human message
content in, response content out. -/
def TranspileAgent._initial_transpile (agent : TranspileAgent)
    (invoke : String → String → String) (state : State) : State :=
  let user_prompt := agent.transpile_user_prompt state.plan state.original_code
  let response := invoke agent.system_prompt user_prompt
  { state with code := TranspileAgent._extract_code response }

/-- src/core/agents/transpile_agent.py TranspileAgent._fix_errors.  A missing
key 1 in error_prompts is the KeyError path (`Except.error`). -/
def TranspileAgent._fix_errors (agent : TranspileAgent)
    (invoke : String → String → String) (state : State) : Except String State :=
  match agent.selectErrorPrompt state.last_error.status with
  | none => Except.error "KeyError: 1"
  | some tmpl =>
    let error_prompt := tmpl state.last_error.message
    let response := invoke agent.system_prompt
      (error_prompt ++ "\n\n```python\n" ++ state.code ++ "\n```")
    Except.ok { state with code := TranspileAgent._extract_code response }

/-- src/core/agents/transpile_agent.py TranspileAgent.run: branch on
current_iterations, then check compilation of the produced candidate, store
the result in last_error and increment current_iterations. -/
def TranspileAgent.run (agent : TranspileAgent) (invoke : String → String → String)
    (py_compile : String → CompileOutcome) (tmp_path : String)
    (state : State) (fs : List String) : Except String State × List String :=
  let attempt : Except String State :=
    if state.current_iterations > 0 then agent._fix_errors invoke state
    else Except.ok (agent._initial_transpile invoke state)
  match attempt with
  | Except.error e => (Except.error e, fs)
  | Except.ok st1 =>
    match check_compilation py_compile tmp_path st1.code fs with
    | (Except.error e, fs2) => (Except.error e, fs2)
    | (Except.ok err, fs2) =>
      (Except.ok
        { st1 with last_error := err, current_iterations := st1.current_iterations + 1 },
       fs2)

/-- src/core/agents/summary_agent.py SummaryAgent. -/
structure SummaryAgent where
  name : String
  system_prompt : String
  user_prompt_template : String → String

/-- src/core/agents/summary_agent.py SummaryAgent.run: write the model's
response into the summary field. -/
def SummaryAgent.run (agent : SummaryAgent) (invoke : String → String → String)
    (state : State) : State :=
  let user_prompt := agent.user_prompt_template state.original_code
  let response := invoke agent.system_prompt user_prompt
  { state with summary := response }

/-- src/core/agents/planning_agent.py PlanningAgent. -/
structure PlanningAgent where
  name : String
  system_prompt : String
  user_prompt_template : String → String → String

/-- src/core/agents/planning_agent.py PlanningAgent.run: write the model's
response into the plan field. -/
def PlanningAgent.run (agent : PlanningAgent) (invoke : String → String → String)
    (state : State) : State :=
  let user_prompt := agent.user_prompt_template state.summary state.original_code
  let response := invoke agent.system_prompt user_prompt
  { state with plan := response }

/-- The TranspileAgent instantiation in src/run_transpile.py main:
error_prompts registers exactly key 1, the compile-error repair template. -/
def mainTranspileAgent (sys : String) (u : String → String → String)
    (e : String → String) : TranspileAgent :=
  { name := "transpile"
    system_prompt := sys
    transpile_user_prompt := u
    error_prompts := [(1, e)] }

/-- The conditional-edge loop out of the transpile node in the compiled graph
of src/run_transpile.py main: run the node, evaluate compile_condition,
re-enter the node on "continue", stop on "terminate".  `fuel` bounds the
recursion so the definition is structural; the `Nat` in the result counts how
many times TranspileAgent.run executed. -/
def transpileLoop (agent : TranspileAgent) (invoke : String → String → String)
    (py_compile : String → CompileOutcome) (tmp_path : String) (max_iter : Int) :
    Nat → State → List String → Option (Except String State × List String × Nat)
  | 0, _, _ => none
  | fuel + 1, state, fs =>
    match TranspileAgent.run agent invoke py_compile tmp_path state fs with
    | (Except.error e, fs2) => some (Except.error e, fs2, 1)
    | (Except.ok st2, fs2) =>
      if compile_condition st2 max_iter = "continue" then
        match transpileLoop agent invoke py_compile tmp_path max_iter fuel st2 fs2 with
        | none => none
        | some (res, fs3, n) => some (res, fs3, n + 1)
      else some (Except.ok st2, fs2, 1)

/-- graph.invoke of the workflow built in src/run_transpile.py main: the
summary node, then the planning node, then the bounded transpile loop.  The
fuel passed to the loop is one more than the remaining iteration budget, which
is proved sufficient (the loop never returns `none` from it). -/
def graph_invoke (sAgent : SummaryAgent) (pAgent : PlanningAgent)
    (tAgent : TranspileAgent) (invoke : String → String → String)
    (py_compile : String → CompileOutcome) (tmp_path : String) (max_iter : Int)
    (state : State) (fs : List String) :
    Option (Except String State × List String × Nat) :=
  let s1 := SummaryAgent.run sAgent invoke state
  let s2 := PlanningAgent.run pAgent invoke s1
  transpileLoop tAgent invoke py_compile tmp_path max_iter
    ((max_iter - s2.current_iterations).toNat + 1) s2 fs

/-! ## Helper lemmas -/

/-- check_compilation removes its scratch file on every path: the file-system
component of the result is always the input file system. -/
theorem check_compilation_fs (py : String → CompileOutcome) (tmp code : String)
    (fs : List String) : (check_compilation py tmp code fs).2 = fs := by
  unfold check_compilation
  split
  · rfl
  · cases hpc : py code <;> simp [hpc, List.erase_cons_head]

/-- Everything TranspileAgent.run guarantees about a successful invocation:
the iteration count goes up by exactly one, no field other than code,
last_error and current_iterations changes, the file system is restored, the
stored last_error is the validation result of the stored candidate, and the
candidate comes from the branch the iteration count selected. -/
theorem run_ok_spec (agent : TranspileAgent) (invoke : String → String → String)
    (py : String → CompileOutcome) (tmp : String) (state : State)
    (fs : List String) (st2 : State) (fs2 : List String)
    (h : TranspileAgent.run agent invoke py tmp state fs = (Except.ok st2, fs2)) :
    st2.current_iterations = state.current_iterations + 1 ∧
    st2.original_code = state.original_code ∧
    st2.summary = state.summary ∧
    st2.plan = state.plan ∧
    st2.scratchpad = state.scratchpad ∧
    fs2 = fs ∧
    (check_compilation py tmp st2.code fs).1 = Except.ok st2.last_error ∧
    (¬ state.current_iterations > 0 →
      st2.code = TranspileAgent._extract_code
        (invoke agent.system_prompt
          (agent.transpile_user_prompt state.plan state.original_code))) ∧
    (state.current_iterations > 0 → ∀ tmpl,
      agent.selectErrorPrompt state.last_error.status = some tmpl →
      st2.code = TranspileAgent._extract_code
        (invoke agent.system_prompt
          (tmpl state.last_error.message ++ "\n\n```python\n" ++ state.code ++ "\n```"))) := by
  have hfs := check_compilation_fs py tmp
  unfold TranspileAgent.run at h
  by_cases hi : state.current_iterations > 0
  · rw [if_pos hi] at h
    unfold TranspileAgent._fix_errors at h
    cases hsel : agent.selectErrorPrompt state.last_error.status with
    | none => rw [hsel] at h; simp at h
    | some tmpl =>
      rw [hsel] at h
      simp only at h
      cases hc : check_compilation py tmp
          (TranspileAgent._extract_code
            (invoke agent.system_prompt
              (tmpl state.last_error.message ++ "\n\n```python\n" ++ state.code ++ "\n```")))
          fs with
      | mk r fsr =>
        rw [hc] at h
        cases r with
        | error e => simp at h
        | ok err =>
          simp only [Prod.mk.injEq, Except.ok.injEq] at h
          obtain ⟨hst, hfs2⟩ := h
          subst hst hfs2
          have hfsr : fsr = fs := by
            have := hfs (TranspileAgent._extract_code
              (invoke agent.system_prompt
                (tmpl state.last_error.message ++ "\n\n```python\n" ++ state.code ++ "\n```"))) fs
            rw [hc] at this
            exact this
          subst hfsr
          refine ⟨rfl, rfl, rfl, rfl, rfl, rfl, ?_, ?_, ?_⟩
          · simpa using congrArg Prod.fst hc
          · intro hni; exact absurd hi hni
          · intro _ tmpl2 hsel2
            cases hsel2
            rfl
  · rw [if_neg hi] at h
    simp only at h
    cases hc : check_compilation py tmp
        (TranspileAgent._extract_code
          (invoke agent.system_prompt
            (agent.transpile_user_prompt state.plan state.original_code)))
        fs with
    | mk r fsr =>
      unfold TranspileAgent._initial_transpile at h
      simp only at h
      rw [hc] at h
      cases r with
      | error e => simp at h
      | ok err =>
        simp only [Prod.mk.injEq, Except.ok.injEq] at h
        obtain ⟨hst, hfs2⟩ := h
        subst hst hfs2
        have hfsr : fsr = fs := by
          have := hfs (TranspileAgent._extract_code
            (invoke agent.system_prompt
              (agent.transpile_user_prompt state.plan state.original_code))) fs
          rw [hc] at this
          exact this
        subst hfsr
        refine ⟨rfl, rfl, rfl, rfl, rfl, rfl, ?_, ?_, ?_⟩
        · simpa using congrArg Prod.fst hc
        · intro _; rfl
        · intro hgt; exact absurd hgt hi

/-- The routing decision continues exactly when the last validation status is
nonzero and the iteration count is strictly below the cap. -/
theorem compile_condition_continue_iff (s : State) (m : Int) :
    compile_condition s m = "continue" ↔
      s.last_error.status ≠ 0 ∧ s.current_iterations < m := by
  constructor
  · intro hc
    by_contra hn
    unfold compile_condition at hc
    rw [if_neg hn] at hc
    exact absurd hc (by decide)
  · intro hcond
    unfold compile_condition
    rw [if_pos hcond]

/-- Per-pass bound for the transpile loop: the execution count is at most the
larger of one and the remaining budget, and a successfully returned state's
iteration count is at most the larger of one more than the entering count and
the cap. -/
theorem transpileLoop_bound (agent : TranspileAgent) (invoke : String → String → String)
    (py : String → CompileOutcome) (tmp : String) (max_iter : Int) :
    ∀ (fuel : Nat) (state : State) (fs : List String) res fs2 (n : Nat),
      transpileLoop agent invoke py tmp max_iter fuel state fs = some (res, fs2, n) →
      ((n : Int) ≤ max 1 (max_iter - state.current_iterations) ∧
       ∀ st2, res = Except.ok st2 →
         st2.current_iterations ≤ max (state.current_iterations + 1) max_iter) := by
  intro fuel
  induction fuel with
  | zero => intro state fs res fs2 n h; simp [transpileLoop] at h
  | succ fuel ih =>
    intro state fs res fs2 n h
    simp only [transpileLoop] at h
    cases hrun : TranspileAgent.run agent invoke py tmp state fs with
    | mk r fsr =>
      rw [hrun] at h
      cases r with
      | error e =>
        simp only [Option.some.injEq, Prod.mk.injEq] at h
        obtain ⟨hres, -, hn⟩ := h
        subst hn
        constructor
        · omega
        · intro st2 hst2
          rw [← hres] at hst2
          cases hst2
      | ok st2 =>
        dsimp only at h
        have hci : st2.current_iterations = state.current_iterations + 1 :=
          (run_ok_spec agent invoke py tmp state fs st2 fsr hrun).1
        by_cases hcond : compile_condition st2 max_iter = "continue"
        · rw [if_pos hcond] at h
          have hlt : st2.current_iterations < max_iter :=
            ((compile_condition_continue_iff st2 max_iter).mp hcond).2
          cases hrec : transpileLoop agent invoke py tmp max_iter fuel st2 fsr with
          | none => rw [hrec] at h; cases h
          | some v =>
            obtain ⟨res2, fs3, n2⟩ := v
            rw [hrec] at h
            simp only [Option.some.injEq, Prod.mk.injEq] at h
            obtain ⟨hres, -, hn⟩ := h
            subst hres hn
            obtain ⟨ihn, ihci⟩ := ih st2 fsr res2 fs3 n2 hrec
            rw [hci] at ihn
            constructor
            · push_cast
              omega
            · intro st3 hst3
              have := ihci st3 hst3
              rw [hci] at this
              omega
        · rw [if_neg hcond] at h
          simp only [Option.some.injEq, Prod.mk.injEq] at h
          obtain ⟨hres, -, hn⟩ := h
          subst hn
          constructor
          · omega
          · intro st3 hst3
            rw [← hres] at hst3
            cases hst3
            rw [hci]
            exact le_max_left _ _

/-- The fuel graph_invoke passes to the loop is sufficient: with more fuel than
the remaining budget the loop always returns a result. -/
theorem transpileLoop_total (agent : TranspileAgent) (invoke : String → String → String)
    (py : String → CompileOutcome) (tmp : String) (max_iter : Int) :
    ∀ (fuel : Nat) (state : State) (fs : List String),
      (max_iter - state.current_iterations).toNat < fuel →
      ∃ res fs2 n,
        transpileLoop agent invoke py tmp max_iter fuel state fs = some (res, fs2, n) := by
  intro fuel
  induction fuel with
  | zero => intro state fs h; omega
  | succ fuel ih =>
    intro state fs h
    simp only [transpileLoop]
    cases hrun : TranspileAgent.run agent invoke py tmp state fs with
    | mk r fsr =>
      cases r with
      | error e => exact ⟨_, _, _, rfl⟩
      | ok st2 =>
        dsimp only
        by_cases hcond : compile_condition st2 max_iter = "continue"
        · rw [if_pos hcond]
          have hci : st2.current_iterations = state.current_iterations + 1 :=
            (run_ok_spec agent invoke py tmp state fs st2 fsr hrun).1
          have hlt : st2.current_iterations < max_iter :=
            ((compile_condition_continue_iff st2 max_iter).mp hcond).2
          obtain ⟨res, fs3, n, hrec⟩ := ih st2 fsr (by omega)
          rw [hrec]
          exact ⟨res, fs3, n + 1, rfl⟩
        · rw [if_neg hcond]
          exact ⟨_, _, _, rfl⟩

/-! ## Claim theorems -/

/-- C10: on every return path of check_compilation — the empty-code guard,
success, compile failure, and a checker-thrown exception — the scratch file it
may have created has been removed before returning: the resulting file system
always equals the input file system, so no observable residue remains. -/
theorem C10_scratch_released (py : String → CompileOutcome)
    (tmp code : String) (fs : List String) :
    (check_compilation py tmp code fs).2 = fs :=
  check_compilation_fs py tmp code fs

/-- C5: validation of every empty or whitespace-only code string — those whose
Python strip is empty — reports the empty-input failure with nonzero status
without consulting the compiler oracle: the result is status 1 and is
identical for every oracle and every scratch path; in particular so for the
two instances named by the claim. -/
theorem C5_empty_guard (py py2 : String → CompileOutcome)
    (tmp tmp2 code : String) (fs : List String)
    (h : (pyStripChars code.data).isEmpty = true) :
    (check_compilation py tmp code fs).1 = Except.ok ⟨1, "Empty code provided"⟩ ∧
    check_compilation py tmp code fs = check_compilation py2 tmp2 code fs ∧
    (check_compilation py tmp "" fs).1 = Except.ok ⟨1, "Empty code provided"⟩ ∧
    (check_compilation py tmp "   " fs).1 = Except.ok ⟨1, "Empty code provided"⟩ := by
  have hg : (code.data.isEmpty || (pyStripChars code.data).isEmpty) = true := by
    rw [h, Bool.or_true]
  refine ⟨?_, ?_, rfl, rfl⟩
  · unfold check_compilation
    rw [if_pos hg]
  · unfold check_compilation
    rw [if_pos hg, if_pos hg]

/-- C5 witness: a whitespace-only string beyond the claim's two named
instances, the guard hypothesis discharged by evaluation. -/
theorem C5_empty_guard_witness :
    (check_compilation (fun _ => CompileOutcome.ok) "t" " \n\t " []).1 =
      Except.ok ⟨1, "Empty code provided"⟩ ∧
    check_compilation (fun _ => CompileOutcome.ok) "t" " \n\t " [] =
      check_compilation (fun _ => CompileOutcome.pyCompileError "boom") "u" " \n\t " [] ∧
    (check_compilation (fun _ => CompileOutcome.ok) "t" "" []).1 =
      Except.ok ⟨1, "Empty code provided"⟩ ∧
    (check_compilation (fun _ => CompileOutcome.ok) "t" "   " []).1 =
      Except.ok ⟨1, "Empty code provided"⟩ :=
  C5_empty_guard (fun _ => CompileOutcome.ok)
    (fun _ => CompileOutcome.pyCompileError "boom") "t" "u" " \n\t " [] (by decide)

/-- C8: every StateError a completed check_compilation call produces is
well-formed: status is 0 or 1 (the reserved category 2 is never produced),
the message is empty when status is 0, and status is 0 exactly when the code
is non-degenerate and the compiler oracle accepts it. -/
theorem C8_validation_wf (py : String → CompileOutcome) (tmp code : String)
    (fs fs2 : List String) (r : StateError)
    (h : check_compilation py tmp code fs = (Except.ok r, fs2)) :
    (r.status = 0 ∨ r.status = 1) ∧
    (r.status = 0 → r.message = "") ∧
    (r.status = 0 ↔
      code.data.isEmpty = false ∧ (pyStripChars code.data).isEmpty = false ∧
        py code = CompileOutcome.ok) := by
  unfold check_compilation at h
  split at h
  next hg =>
    simp only [Prod.mk.injEq, Except.ok.injEq] at h
    obtain ⟨hr, -⟩ := h
    subst hr
    refine ⟨Or.inr rfl, ?_, ?_⟩
    · intro h0; exact absurd h0 (by decide)
    · constructor
      · intro h0; exact absurd h0 (by decide)
      · rintro ⟨h1, h2, -⟩
        rw [h1, h2] at hg
        simp at hg
  next hg =>
    rw [Bool.not_eq_true, Bool.or_eq_false_iff] at hg
    obtain ⟨hg1, hg2⟩ := hg
    cases hpc : py code
    case ok =>
      rw [hpc] at h
      simp only [Prod.mk.injEq, Except.ok.injEq] at h
      obtain ⟨hr, -⟩ := h
      subst hr
      exact ⟨Or.inl rfl, fun _ => rfl, by simp [hg1, hg2, hpc]⟩
    case pyCompileError msg =>
      rw [hpc] at h
      simp only [Prod.mk.injEq, Except.ok.injEq] at h
      obtain ⟨hr, -⟩ := h
      subst hr
      refine ⟨Or.inr rfl, ?_, ?_⟩
      · intro h0; exact absurd h0 (by simp)
      · constructor
        · intro h0; exact absurd h0 (by simp)
        · rintro ⟨-, -, hok⟩
          simp at hok
    case raised msg =>
      rw [hpc] at h
      simp at h

/-- C8 witness: a concrete successful validation, the hypothesis discharged by
evaluation. -/
theorem C8_validation_wf_witness :
    ((StateError.mk 0 "").status = 0 ∨ (StateError.mk 0 "").status = 1) ∧
    ((StateError.mk 0 "").status = 0 → (StateError.mk 0 "").message = "") ∧
    ((StateError.mk 0 "").status = 0 ↔
      ("x" : String).data.isEmpty = false ∧
        (pyStripChars ("x" : String).data).isEmpty = false ∧
        (fun _ : String => CompileOutcome.ok) "x" = CompileOutcome.ok) :=
  C8_validation_wf (fun _ => CompileOutcome.ok) "t" "x" [] [] ⟨0, ""⟩ rfl

/-- C2: the routing decision continues exactly when the last validation status
is nonzero and the iteration count is strictly below the cap; in every other
case it terminates, and on "terminate" the loop halts returning the state
exactly as the transpile node produced it. -/
theorem C2_routing (state : State) (max_iter : Int) (agent : TranspileAgent)
    (invoke : String → String → String) (py : String → CompileOutcome)
    (tmp : String) (state0 : State) (fs fs2 : List String) (st2 : State)
    (fuel : Nat)
    (hrun : TranspileAgent.run agent invoke py tmp state0 fs = (Except.ok st2, fs2))
    (hterm : compile_condition st2 max_iter = "terminate") :
    (compile_condition state max_iter = "continue" ↔
      (state.last_error.status ≠ 0 ∧ state.current_iterations < max_iter)) ∧
    (compile_condition state max_iter = "terminate" ↔
      ¬ (state.last_error.status ≠ 0 ∧ state.current_iterations < max_iter)) ∧
    transpileLoop agent invoke py tmp max_iter (fuel + 1) state0 fs =
      some (Except.ok st2, fs2, 1) := by
  refine ⟨?_, ?_, ?_⟩
  · constructor
    · intro hc
      by_contra hn
      unfold compile_condition at hc
      rw [if_neg hn] at hc
      exact absurd hc (by decide)
    · intro hcond
      unfold compile_condition
      rw [if_pos hcond]
  · constructor
    · intro ht hcond
      unfold compile_condition at ht
      rw [if_pos hcond] at ht
      exact absurd ht (by decide)
    · intro hn
      unfold compile_condition
      rw [if_neg hn]
  · have hnc : ¬ compile_condition st2 max_iter = "continue" := by
      rw [hterm]; decide
    simp only [transpileLoop]
    rw [hrun]
    simp [hnc]

/-- C2 witness: concrete states on both sides of the decision, the hypotheses
discharged by evaluation. -/
theorem C2_routing_witness :
    ((compile_condition ⟨"", "", "", "", "", ⟨1, "e"⟩, 0⟩ 3 = "continue" ↔
      ((StateError.mk 1 "e").status ≠ 0 ∧ (0 : Int) < 3)) ∧
     (compile_condition ⟨"", "", "", "", "", ⟨1, "e"⟩, 0⟩ 3 = "terminate" ↔
      ¬ ((StateError.mk 1 "e").status ≠ 0 ∧ (0 : Int) < 3)) ∧
     transpileLoop (mainTranspileAgent "s" (fun p _ => p) id) (fun _ u => u)
        (fun _ => CompileOutcome.ok) "t" 3 (0 + 1)
        ⟨"", "o", "", "p", "", ⟨0, ""⟩, 0⟩ [] =
      some (Except.ok ⟨"p", "o", "", "p", "", ⟨0, ""⟩, 1⟩, [], 1)) := by
  have h := C2_routing ⟨"", "", "", "", "", ⟨1, "e"⟩, 0⟩ 3
    (mainTranspileAgent "s" (fun p _ => p) id) (fun _ u => u)
    (fun _ => CompileOutcome.ok) "t" ⟨"", "o", "", "p", "", ⟨0, ""⟩, 0⟩ [] []
    ⟨"p", "o", "", "p", "", ⟨0, ""⟩, 1⟩ 0 rfl rfl
  exact h

/-- C6: in repair mode the template registered under the last validation
status is selected when present; an unregistered status falls back to the
template registered under key 1; in particular with main's registration the
key 1 template answers both key 1 and every other key. -/
theorem C6_category_routing (agent : TranspileAgent) (k : Int)
    (d t : String → String) (sys : String) (u : String → String → String)
    (e : String → String)
    (h1 : agent.error_prompts.lookup 1 = some d) :
    (agent.error_prompts.lookup k = some t →
      agent.selectErrorPrompt k = some t) ∧
    (agent.error_prompts.lookup k = none →
      agent.selectErrorPrompt k = some d) ∧
    (mainTranspileAgent sys u e).selectErrorPrompt 1 = some e ∧
    (k ≠ 1 → (mainTranspileAgent sys u e).selectErrorPrompt k = some e) := by
  refine ⟨?_, ?_, rfl, ?_⟩
  · intro hk
    unfold TranspileAgent.selectErrorPrompt
    rw [h1, hk]
    rfl
  · intro hk
    unfold TranspileAgent.selectErrorPrompt
    rw [h1, hk]
    rfl
  · intro hk
    unfold TranspileAgent.selectErrorPrompt mainTranspileAgent
    have hke : (k == (1 : Int)) = false := beq_eq_false_iff_ne.mpr hk
    simp [List.lookup, hke]

/-- C6 witness: main's concrete registration, key 5 unregistered. -/
theorem C6_category_routing_witness :
    (((mainTranspileAgent "s" (fun p _ => p) id).error_prompts.lookup 5 = some id →
      (mainTranspileAgent "s" (fun p _ => p) id).selectErrorPrompt 5 = some id) ∧
     ((mainTranspileAgent "s" (fun p _ => p) id).error_prompts.lookup 5 = none →
      (mainTranspileAgent "s" (fun p _ => p) id).selectErrorPrompt 5 = some id) ∧
     (mainTranspileAgent "s" (fun p _ => p) id).selectErrorPrompt 1 = some id ∧
     ((5 : Int) ≠ 1 →
      (mainTranspileAgent "s" (fun p _ => p) id).selectErrorPrompt 5 = some id)) :=
  C6_category_routing (mainTranspileAgent "s" (fun p _ => p) id) 5 id id "s"
    (fun p _ => p) id rfl

/-- C9: the summarizer's run writes only the summary field, the planner's run
writes only the plan field, and no stage — summarizer, planner, or a
successful transpile run — changes original_code. -/
theorem C9_frame (sAgent : SummaryAgent) (pAgent : PlanningAgent)
    (tAgent : TranspileAgent) (invoke : String → String → String)
    (py : String → CompileOutcome) (tmp : String) (s : State)
    (fs fs2 : List String) (st2 : State)
    (h : TranspileAgent.run tAgent invoke py tmp s fs = (Except.ok st2, fs2)) :
    ((SummaryAgent.run sAgent invoke s).code = s.code ∧
     (SummaryAgent.run sAgent invoke s).original_code = s.original_code ∧
     (SummaryAgent.run sAgent invoke s).plan = s.plan ∧
     (SummaryAgent.run sAgent invoke s).scratchpad = s.scratchpad ∧
     (SummaryAgent.run sAgent invoke s).last_error = s.last_error ∧
     (SummaryAgent.run sAgent invoke s).current_iterations = s.current_iterations) ∧
    ((PlanningAgent.run pAgent invoke s).code = s.code ∧
     (PlanningAgent.run pAgent invoke s).original_code = s.original_code ∧
     (PlanningAgent.run pAgent invoke s).summary = s.summary ∧
     (PlanningAgent.run pAgent invoke s).scratchpad = s.scratchpad ∧
     (PlanningAgent.run pAgent invoke s).last_error = s.last_error ∧
     (PlanningAgent.run pAgent invoke s).current_iterations = s.current_iterations) ∧
    st2.original_code = s.original_code := by
  refine ⟨⟨rfl, rfl, rfl, rfl, rfl, rfl⟩, ⟨rfl, rfl, rfl, rfl, rfl, rfl⟩, ?_⟩
  exact (run_ok_spec tAgent invoke py tmp s fs st2 fs2 h).2.1

/-- C3: a successful TranspileAgent.run builds the initial request from the
plan and the original code when the iteration count is zero, builds the repair
request from the last validation message and the current candidate when the
count is positive, and in both cases validates the new candidate, stores the
result in last_error and increments the iteration count by exactly one. -/
theorem C3_run_contract (agent : TranspileAgent) (invoke : String → String → String)
    (py : String → CompileOutcome) (tmp : String) (state : State)
    (fs : List String) (st2 : State) (fs2 : List String)
    (h : TranspileAgent.run agent invoke py tmp state fs = (Except.ok st2, fs2)) :
    st2.current_iterations = state.current_iterations + 1 ∧
    (check_compilation py tmp st2.code fs).1 = Except.ok st2.last_error ∧
    (state.current_iterations = 0 →
      st2.code = TranspileAgent._extract_code
        (invoke agent.system_prompt
          (agent.transpile_user_prompt state.plan state.original_code))) ∧
    (state.current_iterations > 0 → ∀ tmpl,
      agent.selectErrorPrompt state.last_error.status = some tmpl →
      st2.code = TranspileAgent._extract_code
        (invoke agent.system_prompt
          (tmpl state.last_error.message ++ "\n\n```python\n" ++
            state.code ++ "\n```"))) := by
  obtain ⟨h1, -, -, -, -, -, h7, h8, h9⟩ :=
    run_ok_spec agent invoke py tmp state fs st2 fs2 h
  exact ⟨h1, h7, fun h0 => h8 (by omega), h9⟩

/-- C1 counterexample: with maxIterations = 0 the workflow still executes the
transpile node once — the graph enters it unconditionally before the routing
decision is evaluated — so the execution count is 1 > 0 and the final
iteration count is 1 > 0, refuting the bound as stated for N = 0. -/
theorem C1_iteration_bound_cex :
    graph_invoke ⟨"summary", "ss", id⟩ ⟨"planning", "ps", fun su _ => su⟩
        (mainTranspileAgent "s" (fun p _ => p) id) (fun _ u => u)
        (fun _ => CompileOutcome.ok) "t" 0 ⟨"", "o", "", "", "", ⟨0, ""⟩, 0⟩ [] =
      some (Except.ok ⟨"o", "o", "o", "o", "", ⟨0, ""⟩, 1⟩, [], 1) ∧
    ¬ ((1 : Nat) ≤ (0 : Int).toNat) ∧ ¬ ((1 : Int) ≤ 0) :=
  ⟨rfl, by decide, by decide⟩

/-- C1 amended: for every maxIterations value N ≥ 1 and a workflow started at
iteration count 0, the run terminates with the transpile node executed at most
N times and a final iteration count of at most N.  (For N ≤ 0 the node still
executes exactly once; see the counterexample.) -/
theorem C1_iteration_bound (sAgent : SummaryAgent) (pAgent : PlanningAgent)
    (tAgent : TranspileAgent) (invoke : String → String → String)
    (py : String → CompileOutcome) (tmp : String) (max_iter : Int)
    (state : State) (fs : List String)
    (hN : 1 ≤ max_iter) (h0 : state.current_iterations = 0) :
    ∃ res fs2 n,
      graph_invoke sAgent pAgent tAgent invoke py tmp max_iter state fs =
        some (res, fs2, n) ∧
      n ≤ max_iter.toNat ∧
      ∀ st2, res = Except.ok st2 → st2.current_iterations ≤ max_iter := by
  unfold graph_invoke
  have hci : (PlanningAgent.run pAgent invoke
      (SummaryAgent.run sAgent invoke state)).current_iterations = 0 := h0
  obtain ⟨res, fs2, n, hloop⟩ := transpileLoop_total tAgent invoke py tmp max_iter
    ((max_iter - (PlanningAgent.run pAgent invoke
      (SummaryAgent.run sAgent invoke state)).current_iterations).toNat + 1)
    (PlanningAgent.run pAgent invoke (SummaryAgent.run sAgent invoke state)) fs
    (by omega)
  obtain ⟨hb, hfinal⟩ := transpileLoop_bound tAgent invoke py tmp max_iter _
    (PlanningAgent.run pAgent invoke (SummaryAgent.run sAgent invoke state))
    fs res fs2 n hloop
  rw [hci] at hb hfinal
  refine ⟨res, fs2, n, hloop, by omega, ?_⟩
  intro st2 hst2
  have := hfinal st2 hst2
  omega

/-- C1 amended witness: the spec's own scenario — budget 3, a compiler that
always fails — runs the node at most 3 times with final count at most 3. -/
theorem C1_iteration_bound_witness :
    ∃ res fs2 n,
      graph_invoke ⟨"summary", "ss", id⟩ ⟨"planning", "ps", fun su _ => su⟩
          (mainTranspileAgent "s" (fun p _ => p) id) (fun _ u => u)
          (fun _ => CompileOutcome.pyCompileError "boom") "t" 3
          ⟨"", "o", "", "", "", ⟨0, ""⟩, 0⟩ [] =
        some (res, fs2, n) ∧
      n ≤ (3 : Int).toNat ∧
      ∀ st2, res = Except.ok st2 → st2.current_iterations ≤ 3 :=
  C1_iteration_bound ⟨"summary", "ss", id⟩ ⟨"planning", "ps", fun su _ => su⟩
    (mainTranspileAgent "s" (fun p _ => p) id) (fun _ u => u)
    (fun _ => CompileOutcome.pyCompileError "boom") "t" 3
    ⟨"", "o", "", "", "", ⟨0, ""⟩, 0⟩ [] (by decide) rfl

/-- C7: if validation of the candidate produced by the first transpile
invocation returns status 0 with empty message, the workflow terminates after
exactly one transpile execution, with final iteration count 1, for every
maxIterations value. -/
theorem C7_idempotent_success (sAgent : SummaryAgent) (pAgent : PlanningAgent)
    (tAgent : TranspileAgent) (invoke : String → String → String)
    (py : String → CompileOutcome) (tmp : String) (max_iter : Int)
    (state : State) (fs fs2 : List String) (st2 : State)
    (h0 : state.current_iterations = 0)
    (hrun : TranspileAgent.run tAgent invoke py tmp
        (PlanningAgent.run pAgent invoke (SummaryAgent.run sAgent invoke state))
        fs = (Except.ok st2, fs2))
    (hok : st2.last_error = ⟨0, ""⟩) :
    graph_invoke sAgent pAgent tAgent invoke py tmp max_iter state fs =
      some (Except.ok st2, fs2, 1) ∧
    st2.current_iterations = 1 := by
  have hci2 : (PlanningAgent.run pAgent invoke
      (SummaryAgent.run sAgent invoke state)).current_iterations = 0 := h0
  have hspec := run_ok_spec tAgent invoke py tmp
    (PlanningAgent.run pAgent invoke (SummaryAgent.run sAgent invoke state))
    fs st2 fs2 hrun
  have hci : st2.current_iterations = 1 := by
    have := hspec.1
    omega
  have hterm : ¬ compile_condition st2 max_iter = "continue" := by
    rw [compile_condition_continue_iff]
    rintro ⟨hne, -⟩
    rw [hok] at hne
    exact hne rfl
  refine ⟨?_, hci⟩
  unfold graph_invoke
  simp only [transpileLoop]
  rw [hrun]
  simp [hterm]

/-- C7 witness: a concrete run whose first candidate validates cleanly
terminates with one execution and iteration count 1. -/
theorem C7_idempotent_success_witness :
    graph_invoke ⟨"summary", "ss", id⟩ ⟨"planning", "ps", fun su _ => su⟩
        (mainTranspileAgent "s" (fun p _ => p) id) (fun _ u => u)
        (fun _ => CompileOutcome.ok) "t" 3 ⟨"", "o", "", "", "", ⟨0, ""⟩, 0⟩ [] =
      some (Except.ok ⟨"o", "o", "o", "o", "", ⟨0, ""⟩, 1⟩, [], 1) ∧
    (State.mk "o" "o" "o" "o" "" ⟨0, ""⟩ 1).current_iterations = 1 :=
  C7_idempotent_success ⟨"summary", "ss", id⟩ ⟨"planning", "ps", fun su _ => su⟩
    (mainTranspileAgent "s" (fun p _ => p) id) (fun _ u => u)
    (fun _ => CompileOutcome.ok) "t" 3 ⟨"", "o", "", "", "", ⟨0, ""⟩, 0⟩ [] []
    ⟨"o", "o", "o", "o", "", ⟨0, ""⟩, 1⟩ rfl rfl rfl

/-- C3 witness: a concrete successful first invocation, the hypothesis
discharged by evaluation. -/
theorem C3_run_contract_witness :
    (State.mk "p" "o" "" "p" "" ⟨0, ""⟩ 1).current_iterations =
        (State.mk "" "o" "" "p" "" ⟨0, ""⟩ 0).current_iterations + 1 ∧
    (check_compilation (fun _ => CompileOutcome.ok) "t"
        (State.mk "p" "o" "" "p" "" ⟨0, ""⟩ 1).code []).1 =
      Except.ok (State.mk "p" "o" "" "p" "" ⟨0, ""⟩ 1).last_error ∧
    ((State.mk "" "o" "" "p" "" ⟨0, ""⟩ 0).current_iterations = 0 →
      (State.mk "p" "o" "" "p" "" ⟨0, ""⟩ 1).code = TranspileAgent._extract_code
        ((fun _ u => u) (mainTranspileAgent "s" (fun p _ => p) id).system_prompt
          ((mainTranspileAgent "s" (fun p _ => p) id).transpile_user_prompt
            (State.mk "" "o" "" "p" "" ⟨0, ""⟩ 0).plan
            (State.mk "" "o" "" "p" "" ⟨0, ""⟩ 0).original_code))) ∧
    ((State.mk "" "o" "" "p" "" ⟨0, ""⟩ 0).current_iterations > 0 → ∀ tmpl,
      (mainTranspileAgent "s" (fun p _ => p) id).selectErrorPrompt
          (State.mk "" "o" "" "p" "" ⟨0, ""⟩ 0).last_error.status = some tmpl →
      (State.mk "p" "o" "" "p" "" ⟨0, ""⟩ 1).code = TranspileAgent._extract_code
        ((fun _ u => u) (mainTranspileAgent "s" (fun p _ => p) id).system_prompt
          (tmpl (State.mk "" "o" "" "p" "" ⟨0, ""⟩ 0).last_error.message ++
            "\n\n```python\n" ++ (State.mk "" "o" "" "p" "" ⟨0, ""⟩ 0).code ++
            "\n```"))) :=
  C3_run_contract (mainTranspileAgent "s" (fun p _ => p) id) (fun _ u => u)
    (fun _ => CompileOutcome.ok) "t" ⟨"", "o", "", "p", "", ⟨0, ""⟩, 0⟩ []
    ⟨"p", "o", "", "p", "", ⟨0, ""⟩, 1⟩ [] rfl

/-- C9 witness: concrete stages, the transpile hypothesis discharged by
evaluation. -/
theorem C9_frame_witness :
    ((SummaryAgent.run ⟨"summary", "ss", id⟩ (fun _ u => u)
        ⟨"", "o", "", "p", "", ⟨0, ""⟩, 0⟩).code =
      (State.mk "" "o" "" "p" "" ⟨0, ""⟩ 0).code ∧
     (SummaryAgent.run ⟨"summary", "ss", id⟩ (fun _ u => u)
        ⟨"", "o", "", "p", "", ⟨0, ""⟩, 0⟩).original_code =
      (State.mk "" "o" "" "p" "" ⟨0, ""⟩ 0).original_code ∧
     (SummaryAgent.run ⟨"summary", "ss", id⟩ (fun _ u => u)
        ⟨"", "o", "", "p", "", ⟨0, ""⟩, 0⟩).plan =
      (State.mk "" "o" "" "p" "" ⟨0, ""⟩ 0).plan ∧
     (SummaryAgent.run ⟨"summary", "ss", id⟩ (fun _ u => u)
        ⟨"", "o", "", "p", "", ⟨0, ""⟩, 0⟩).scratchpad =
      (State.mk "" "o" "" "p" "" ⟨0, ""⟩ 0).scratchpad ∧
     (SummaryAgent.run ⟨"summary", "ss", id⟩ (fun _ u => u)
        ⟨"", "o", "", "p", "", ⟨0, ""⟩, 0⟩).last_error =
      (State.mk "" "o" "" "p" "" ⟨0, ""⟩ 0).last_error ∧
     (SummaryAgent.run ⟨"summary", "ss", id⟩ (fun _ u => u)
        ⟨"", "o", "", "p", "", ⟨0, ""⟩, 0⟩).current_iterations =
      (State.mk "" "o" "" "p" "" ⟨0, ""⟩ 0).current_iterations) ∧
    ((PlanningAgent.run ⟨"planning", "ps", fun su _ => su⟩ (fun _ u => u)
        ⟨"", "o", "", "p", "", ⟨0, ""⟩, 0⟩).code =
      (State.mk "" "o" "" "p" "" ⟨0, ""⟩ 0).code ∧
     (PlanningAgent.run ⟨"planning", "ps", fun su _ => su⟩ (fun _ u => u)
        ⟨"", "o", "", "p", "", ⟨0, ""⟩, 0⟩).original_code =
      (State.mk "" "o" "" "p" "" ⟨0, ""⟩ 0).original_code ∧
     (PlanningAgent.run ⟨"planning", "ps", fun su _ => su⟩ (fun _ u => u)
        ⟨"", "o", "", "p", "", ⟨0, ""⟩, 0⟩).summary =
      (State.mk "" "o" "" "p" "" ⟨0, ""⟩ 0).summary ∧
     (PlanningAgent.run ⟨"planning", "ps", fun su _ => su⟩ (fun _ u => u)
        ⟨"", "o", "", "p", "", ⟨0, ""⟩, 0⟩).scratchpad =
      (State.mk "" "o" "" "p" "" ⟨0, ""⟩ 0).scratchpad ∧
     (PlanningAgent.run ⟨"planning", "ps", fun su _ => su⟩ (fun _ u => u)
        ⟨"", "o", "", "p", "", ⟨0, ""⟩, 0⟩).last_error =
      (State.mk "" "o" "" "p" "" ⟨0, ""⟩ 0).last_error ∧
     (PlanningAgent.run ⟨"planning", "ps", fun su _ => su⟩ (fun _ u => u)
        ⟨"", "o", "", "p", "", ⟨0, ""⟩, 0⟩).current_iterations =
      (State.mk "" "o" "" "p" "" ⟨0, ""⟩ 0).current_iterations) ∧
    (State.mk "p" "o" "" "p" "" ⟨0, ""⟩ 1).original_code =
      (State.mk "" "o" "" "p" "" ⟨0, ""⟩ 0).original_code :=
  C9_frame ⟨"summary", "ss", id⟩ ⟨"planning", "ps", fun su _ => su⟩
    (mainTranspileAgent "s" (fun p _ => p) id) (fun _ u => u)
    (fun _ => CompileOutcome.ok) "t" ⟨"", "o", "", "p", "", ⟨0, ""⟩, 0⟩ [] []
    ⟨"p", "o", "", "p", "", ⟨0, ""⟩, 1⟩ rfl

/-! ## Extraction lemmas -/

theorem dropLit_append (p l : List Char) : dropLit p (p ++ l) = some l := by
  induction p with
  | nil => rfl
  | cons c ps ih => simp [dropLit, ih]

theorem dropLit_of_startsWithL_false (p l : List Char)
    (h : startsWithL p l = false) : dropLit p l = none := by
  induction p generalizing l with
  | nil => simp [startsWithL] at h
  | cons c ps ih =>
    cases l with
    | nil => rfl
    | cons d ls =>
      by_cases hcd : c = d
      · subst hcd
        simp only [startsWithL, decide_True, Bool.true_and] at h
        simp [dropLit, ih ls h]
      · simp [dropLit, hcd]

theorem startsWithL_append (p l : List Char) : startsWithL p (p ++ l) = true := by
  induction p with
  | nil => rfl
  | cons c ps ih => simp [startsWithL, ih]

/-- Scanning past positions where the tag cannot start does not change the
first match. -/
theorem findPyBlock_skip (a l : List Char)
    (h : ∀ k, k < a.length → startsWithL pyTag (List.drop k (a ++ l)) = false) :
    findPyBlock (a ++ l) = findPyBlock l := by
  induction a with
  | nil => rfl
  | cons c a ih =>
    have h0 : startsWithL pyTag ((c :: a) ++ l) = false := by
      simpa using h 0 (by simp)
    have hd : dropLit pyTag ((c :: a) ++ l) = none :=
      dropLit_of_startsWithL_false _ _ h0
    simp only [List.cons_append] at hd ⊢
    simp only [findPyBlock, hd]
    exact ih fun k hk => by
      simpa using h (k + 1) (by simpa using Nat.succ_lt_succ hk)

/-- At a position where the tag matches and the tail matches, the scan stops
and returns the capture. -/
theorem findPyBlock_at_tag (rest cap : List Char)
    (h : matchTail rest = some cap) :
    findPyBlock (pyTag ++ rest) = some cap := by
  have hd : dropLit pyTag
      ('\x60' :: '\x60' :: '\x60' :: 'p' :: 'y' :: 't' :: 'h' :: 'o' :: 'n' :: rest) =
      some rest := dropLit_append pyTag rest
  show findPyBlock
      ('\x60' :: '\x60' :: '\x60' :: 'p' :: 'y' :: 't' :: 'h' :: 'o' :: 'n' :: rest) =
    some cap
  simp only [findPyBlock, hd, h]

/-- The lazy capture takes exactly the text before the closing newline-fence
when no earlier position inside it can start that fence. -/
theorem matchCapture_exact (x b : List Char)
    (h : ∀ k, k < x.length →
      startsWithL nlFence (List.drop k (x ++ (nlFence ++ b))) = false) :
    matchCapture (x ++ (nlFence ++ b)) = some x := by
  induction x with
  | nil =>
    have hs : startsWithL nlFence ('\n' :: '\x60' :: '\x60' :: '\x60' :: b) = true :=
      startsWithL_append nlFence b
    show matchCapture ('\n' :: '\x60' :: '\x60' :: '\x60' :: b) = some []
    simp [matchCapture, hs]
  | cons c x ih =>
    have h0 : startsWithL nlFence (c :: (x ++ (nlFence ++ b))) = false := by
      simpa using h 0 (by simp)
    have hrec := ih fun k hk => by
      simpa using h (k + 1) (by simpa using Nat.succ_lt_succ hk)
    show matchCapture (c :: (x ++ (nlFence ++ b))) = some (c :: x)
    simp [matchCapture, h0, hrec]

/-- The greedy whitespace star on input x followed by the closing fence
normalises to shave x, provided x holds a non-whitespace character (so the
star cannot run into the closing fence) and no fence starts inside x. -/
theorem matchTail_shave (x b : List Char)
    (hf : ∀ k, k < x.length →
      startsWithL nlFence (List.drop k (x ++ (nlFence ++ b))) = false)
    (hw : ∃ c, c ∈ x ∧ pyWS c = false) :
    matchTail (x ++ (nlFence ++ b)) = shave x := by
  induction x with
  | nil =>
    obtain ⟨c, hc, -⟩ := hw
    simp at hc
  | cons c x ih =>
    by_cases hwc : pyWS c = true
    · have hw2 : ∃ d, d ∈ x ∧ pyWS d = false := by
        obtain ⟨d, hd, hdw⟩ := hw
        rcases List.mem_cons.mp hd with rfl | hd2
        · rw [hwc] at hdw; cases hdw
        · exact ⟨d, hd2, hdw⟩
      have hf2 : ∀ k, k < x.length →
          startsWithL nlFence (List.drop k (x ++ (nlFence ++ b))) = false :=
        fun k hk => by
          simpa using hf (k + 1) (by simpa using Nat.succ_lt_succ hk)
      have hrec := ih hf2 hw2
      show matchTail (c :: (x ++ (nlFence ++ b))) = shave (c :: x)
      simp only [matchTail, shave, hwc, if_true]
      rw [hrec]
      cases hs : shave x with
      | some r => rfl
      | none =>
        by_cases hnl : c = '\n'
        · simp [hnl, matchCapture_exact x b hf2]
        · simp [hnl]
    · have hwc2 : pyWS c = false := by simpa using hwc
      show matchTail (c :: (x ++ (nlFence ++ b))) = shave (c :: x)
      simp [matchTail, shave, hwc2]

theorem pyStripChars_cons_ws (c : Char) (l : List Char) (h : pyWS c = true) :
    pyStripChars (c :: l) = pyStripChars l := by
  simp [pyStripChars, List.dropWhile_cons, h]

/-- What shave removes is leading whitespace only, so stripping is unaffected. -/
theorem shave_strip (x : List Char) :
    ∀ r, shave x = some r → pyStripChars r = pyStripChars x := by
  induction x with
  | nil => intro r h; simp [shave] at h
  | cons c x ih =>
    intro r h
    by_cases hwc : pyWS c = true
    · rw [pyStripChars_cons_ws c x hwc]
      simp only [shave, hwc, if_true] at h
      cases hs : shave x with
      | some r2 =>
        rw [hs] at h
        cases h
        exact ih _ hs
      | none =>
        rw [hs] at h
        by_cases hnl : c = '\n'
        · rw [if_pos hnl] at h
          cases h
          rfl
        · rw [if_neg hnl] at h
          cases h
    · have hwc2 : pyWS c = false := by simpa using hwc
      simp [shave, hwc2] at h

/-- Without the tag anywhere, the scan finds nothing. -/
theorem findPyBlock_none_of_no_tag (l : List Char)
    (h : occursIn pyTag l = false) : findPyBlock l = none := by
  induction l with
  | nil => rfl
  | cons c t ih =>
    simp only [occursIn, Bool.or_eq_false_iff] at h
    obtain ⟨h1, h2⟩ := h
    simp only [findPyBlock, dropLit_of_startsWithL_false _ _ h1]
    exact ih h2

/-- C4 counterexample: the input decomposes as a first fenced python block
with empty inner text followed by later prose holding another fence, yet
extraction returns text spanning past the first block's closing fence — the
greedy whitespace star consumes the closing fence's newline — instead of the
first block's inner text trimmed (the empty string). -/
theorem C4_extraction_cex :
    ("prose " ++ "```python" ++ "\n" ++ "" ++ "\n```" ++
        " more ```python\nY\n```" : String) =
      "prose ```python\n\n``` more ```python\nY\n```" ∧
    TranspileAgent._extract_code
        "prose ```python\n\n``` more ```python\nY\n```" =
      "``` more ```python\nY" ∧
    pyStrip "" = "" ∧ ("``` more ```python\nY" : String) ≠ "" :=
  ⟨rfl, rfl, rfl, by decide⟩

/-- C4 amended: for a response of the form a ++ tag ++ newline ++ x ++
newline-fence ++ b in which the tag cannot start before the block, no closing
fence starts inside x, and x holds at least one non-whitespace character,
extraction returns exactly x trimmed; and for a response in which the tag does
not occur at all, extraction returns the whole response trimmed.  (When x is
whitespace-only and b holds a later closing fence the capture overruns the
block; see the counterexample.) -/
theorem C4_extraction (a x b s : String)
    (hA : ∀ k, k < a.data.length →
      startsWithL pyTag
        (List.drop k
          (a.data ++ (pyTag ++ ('\n' :: (x.data ++ (nlFence ++ b.data)))))) = false)
    (hX : ∀ k, k < x.data.length →
      startsWithL nlFence (List.drop k (x.data ++ (nlFence ++ b.data))) = false)
    (hW : ∃ c, c ∈ x.data ∧ pyWS c = false)
    (hS : occursIn pyTag s.data = false) :
    TranspileAgent._extract_code (a ++ "```python\n" ++ x ++ "\n```" ++ b) =
      pyStrip x ∧
    TranspileAgent._extract_code s = pyStrip s := by
  constructor
  · have h1 : ("```python\n" : String).data = pyTag ++ ('\n' :: []) := rfl
    have h2 : ("\n```" : String).data = nlFence := rfl
    have hdata : (a ++ "```python\n" ++ x ++ "\n```" ++ b).data =
        a.data ++ (pyTag ++ ('\n' :: (x.data ++ (nlFence ++ b.data)))) := by
      simp [String.data_append, h1, h2, List.append_assoc, pyTag, nlFence]
    have htag : matchTail ('\n' :: (x.data ++ (nlFence ++ b.data))) =
        match shave x.data with
        | some r => some r
        | none => some x.data := by
      have hws : pyWS '\n' = true := rfl
      show matchTail ('\n' :: (x.data ++ (nlFence ++ b.data))) = _
      simp only [matchTail, hws, if_true]
      rw [matchTail_shave x.data b.data hX hW]
      cases hs2 : shave x.data with
      | some r => rfl
      | none => simp [matchCapture_exact x.data b.data hX]
    unfold TranspileAgent._extract_code
    rw [hdata, findPyBlock_skip _ _ hA]
    cases hs2 : shave x.data with
    | some r =>
      rw [hs2] at htag
      rw [findPyBlock_at_tag _ _ htag]
      show (⟨pyStripChars r⟩ : String) = pyStrip x
      unfold pyStrip
      rw [shave_strip x.data r hs2]
    | none =>
      rw [hs2] at htag
      rw [findPyBlock_at_tag _ _ htag]
      rfl
  · unfold TranspileAgent._extract_code
    rw [findPyBlock_none_of_no_tag s.data hS]

/-- C4 amended witness: the claim's own template input with inner text X and
tag python, and a fence-free response for the fallback. -/
theorem C4_extraction_witness :
    TranspileAgent._extract_code
        ("prose " ++ "```python\n" ++ "X" ++ "\n```" ++ " more prose") =
      pyStrip "X" ∧
    TranspileAgent._extract_code "no fences here" = pyStrip "no fences here" :=
  C4_extraction "prose " "X" " more prose" "no fences here" (by decide) (by decide)
    ⟨'X', by decide⟩ (by decide)

end Transpiler
